import Mathlib

/-!
Verification of the mido MIDI message model and streaming parser.

The repository source under `src/` contains only the package glue module
(`mido/__init__.py`); the message model (`mido.messages`) and the streaming
parser (`mido.parser`) are declared and re-exported there but their code is
not in `src/`.  Those components are therefore modelled from the
specification (sections 3, 4.1, 4.2, 6 of the spec), which fixes the
registered message types, their status bytes, parameter ranges and data
lengths, and the parser's eight transition rules.  `get_ioport_names` is
translated directly from `src/mido/__init__.py`.
-/

namespace Mido

/-- Modelled from the spec: the payload of a MIDI `Message` (the missing
`mido.messages` module).  A tagged variant, one case per registered message
type: channel-voice types carry `channel` (0-15) and their numeric
parameters; `sysex` carries an unbounded byte sequence; the six named
system-realtime types carry no data.  The spec table (section 6) registers
note_off 0x8n, note_on 0x9n, control_change 0xBn, program_change 0xCn,
pitchwheel 0xEn, sysex 0xF0..0xF7, and the realtime bytes 0xF8, 0xFA-0xFC,
0xFE, 0xFF. -/
inductive Payload where
  | note_off (channel note velocity : Nat)
  | note_on (channel note velocity : Nat)
  | control_change (channel control value : Nat)
  | program_change (channel program : Nat)
  | pitchwheel (channel : Nat) (pitch : Int)
  | sysex (data : List Nat)
  | clock
  | start
  | continue_
  | stop
  | active_sensing
  | reset
  deriving DecidableEq, Repr

/-- Modelled from the spec: a Message is its payload plus the opaque
delta-time field, which is never encoded on the wire and is excluded from
semantic equality. -/
structure Message where
  payload : Payload
  time : Int
  deriving DecidableEq, Repr

/-- Modelled from the spec: the closed set of message type tags. -/
inductive MsgType where
  | note_off | note_on | control_change | program_change | pitchwheel
  | sysex | clock | start | continue_ | stop | active_sensing | reset
  deriving DecidableEq, Repr

/-- The type tag of a payload. -/
def Payload.msgType : Payload → MsgType
  | .note_off _ _ _ => .note_off
  | .note_on _ _ _ => .note_on
  | .control_change _ _ _ => .control_change
  | .program_change _ _ => .program_change
  | .pitchwheel _ _ => .pitchwheel
  | .sysex _ => .sysex
  | .clock => .clock
  | .start => .start
  | .continue_ => .continue_
  | .stop => .stop
  | .active_sensing => .active_sensing
  | .reset => .reset

/-- Modelled from the spec (Spec Table): number of data bytes following the
status byte for each fixed-length type; sysex is sentinel-terminated and is
handled separately. -/
def MsgType.dataLength : MsgType → Nat
  | .note_off => 2
  | .note_on => 2
  | .control_change => 2
  | .program_change => 1
  | .pitchwheel => 2
  | _ => 0

/-- Modelled from the spec (Spec Table): the status byte of a payload,
encoding type and channel where applicable; sysex uses its 0xF0 start
sentinel. -/
def Payload.statusByte : Payload → Nat
  | .note_off c _ _ => 0x80 + c
  | .note_on c _ _ => 0x90 + c
  | .control_change c _ _ => 0xB0 + c
  | .program_change c _ => 0xC0 + c
  | .pitchwheel c _ => 0xE0 + c
  | .sysex _ => 0xF0
  | .clock => 0xF8
  | .start => 0xFA
  | .continue_ => 0xFB
  | .stop => 0xFC
  | .active_sensing => 0xFE
  | .reset => 0xFF

/-- Modelled from the spec: validity of a payload, i.e. every parameter
value lies within its declared range (channel 0-15, seven-bit parameters
0-127, pitchwheel -8192..8191, sysex data bytes each 0-127). -/
def Payload.valid : Payload → Bool
  | .note_off c n v => c < 16 && n < 128 && v < 128
  | .note_on c n v => c < 16 && n < 128 && v < 128
  | .control_change c k v => c < 16 && k < 128 && v < 128
  | .program_change c p => c < 16 && p < 128
  | .pitchwheel c p => c < 16 && (-8192 ≤ p && p ≤ 8191)
  | .sysex d => d.all (fun x => x < 128)
  | _ => true

/-- Modelled from the spec: `encode() -> bytes`.  Status byte (encoding type
and channel where applicable) followed by the type's data bytes; sysex is
wrapped with leading 0xF0 and trailing 0xF7; pitchwheel's 14-bit value is
split across two data bytes (LSB first). -/
def Message.encode (m : Message) : List Nat :=
  match m.payload with
  | .note_off c n v => [0x80 + c, n, v]
  | .note_on c n v => [0x90 + c, n, v]
  | .control_change c k v => [0xB0 + c, k, v]
  | .program_change c p => [0xC0 + c, p]
  | .pitchwheel c p =>
      let u := (p + 8192).toNat
      [0xE0 + c, u % 128, u / 128]
  | .sysex d => 0xF0 :: (d ++ [0xF7])
  | p => [p.statusByte]

/-- Modelled from the spec: `byte_length()`, the number of bytes `encode()`
would produce; sysex length depends on the current `data`. -/
def Message.byteLength (m : Message) : Nat :=
  match m.payload with
  | .sysex d => d.length + 2
  | p => 1 + p.msgType.dataLength

/-- Modelled from the spec: the coarse parser position — IDLE (no partial
message), ACCUMULATING (collecting data bytes for a known status byte), or
IN_SYSEX (collecting an unbounded data run). -/
inductive ParserPos where
  | idle
  | accumulating (status : Nat) (buf : List Nat)
  | inSysex (buf : List Nat)
  deriving DecidableEq, Repr

/-- Modelled from the spec: the mutable Parser State — the accumulation
buffer for the message being assembled (inside `pos`), and the last-seen
status byte for running-status recall. -/
structure ParserState where
  pos : ParserPos
  runningStatus : Option Nat
  deriving DecidableEq, Repr

/-- A fresh parser: IDLE, no running status. -/
def freshParser : ParserState := ⟨.idle, none⟩

/-- Is `b` a System Realtime byte (0xF8-0xFF)? -/
def isRealtime (b : Nat) : Prop := 0xF8 ≤ b

instance (b : Nat) : Decidable (isRealtime b) := by
  unfold isRealtime; infer_instance

/-- Modelled from the spec: the zero-data-byte Message for a realtime byte;
0xF9 and 0xFD are not registered message types and map to none. -/
def realtimeMsg (b : Nat) : Option Message :=
  if b = 0xF8 then some ⟨.clock, 0⟩
  else if b = 0xFA then some ⟨.start, 0⟩
  else if b = 0xFB then some ⟨.continue_, 0⟩
  else if b = 0xFC then some ⟨.stop, 0⟩
  else if b = 0xFE then some ⟨.active_sensing, 0⟩
  else if b = 0xFF then some ⟨.reset, 0⟩
  else none

/-- Is `b` the status byte of a registered fixed-length channel-voice type
(note_off 0x8n, note_on 0x9n, control_change 0xBn, program_change 0xCn,
pitchwheel 0xEn)? -/
def isChannelStatus (b : Nat) : Prop :=
  (0x80 ≤ b ∧ b ≤ 0x9F) ∨ (0xB0 ≤ b ∧ b ≤ 0xCF) ∨ (0xE0 ≤ b ∧ b ≤ 0xEF)

instance (b : Nat) : Decidable (isChannelStatus b) := by
  unfold isChannelStatus; infer_instance

/-- Is `b` a System Common status byte (0xF1-0xF6, between the sysex bounds
and below the realtime range)? -/
def isSystemCommon (b : Nat) : Prop := 0xF1 ≤ b ∧ b ≤ 0xF6

instance (b : Nat) : Decidable (isSystemCommon b) := by
  unfold isSystemCommon; infer_instance

/-- Modelled from the spec (Spec Table): the number of data bytes required
after a channel-voice status byte. -/
def statusDataLength (s : Nat) : Nat :=
  if 0xC0 ≤ s ∧ s ≤ 0xCF then 1 else 2

/-- Modelled from the spec: reconstruct the Message for a completed
channel-voice status byte and its accumulated data bytes. -/
def decodeMsg (s : Nat) (buf : List Nat) : Option Message :=
  if 0x80 ≤ s ∧ s ≤ 0x8F then
    match buf with
    | [n, v] => some ⟨.note_off (s - 0x80) n v, 0⟩
    | _ => none
  else if 0x90 ≤ s ∧ s ≤ 0x9F then
    match buf with
    | [n, v] => some ⟨.note_on (s - 0x90) n v, 0⟩
    | _ => none
  else if 0xB0 ≤ s ∧ s ≤ 0xBF then
    match buf with
    | [k, v] => some ⟨.control_change (s - 0xB0) k v, 0⟩
    | _ => none
  else if 0xC0 ≤ s ∧ s ≤ 0xCF then
    match buf with
    | [p] => some ⟨.program_change (s - 0xC0) p, 0⟩
    | _ => none
  else if 0xE0 ≤ s ∧ s ≤ 0xEF then
    match buf with
    | [lsb, msb] => some ⟨.pitchwheel (s - 0xE0) ((msb * 128 + lsb : Nat) - 8192), 0⟩
    | _ => none
  else none

/-- Modelled from the spec: append a data byte to an accumulation for
status `s`; emit the completed Message once the buffer holds exactly the
number of data bytes the Spec Table declares, returning to IDLE and
retaining the running status. -/
def accumulate (rs : Option Nat) (s : Nat) (buf : List Nat) (b : Nat) :
    ParserState × Option Message :=
  let buf2 := buf ++ [b]
  if buf2.length = statusDataLength s then (⟨.idle, rs⟩, decodeMsg s buf2)
  else (⟨.accumulating s buf2, rs⟩, none)

/-- Modelled from the spec: `feed(byte) -> optional Message`, the parser's
transition function (rules 1-8 of section 4.2).  Realtime bytes are emitted
immediately without disturbing the current state; 0xF0 abandons any
accumulation, clears running status and enters IN_SYSEX; 0xF7 inside sysex
emits the collected data; a registered channel-voice status byte abandons
any accumulation (including an unterminated sysex) and starts a new one,
recording itself as running status; a System Common status byte (0xF1-0xF6)
abandons any in-progress accumulation and clears running status per rule 5
(no system-common message type is registered, so nothing is emitted); data
bytes extend the current accumulation, start one via running status when
IDLE, or are discarded; unregistered bytes are discarded silently. -/
def feed (st : ParserState) (b : Nat) : ParserState × Option Message :=
  if isRealtime b then (st, realtimeMsg b)
  else if b = 0xF0 then (⟨.inSysex [], none⟩, none)
  else if 0x80 ≤ b then
    if isChannelStatus b then (⟨.accumulating b [], some b⟩, none)
    else if isSystemCommon b then (⟨.idle, none⟩, none)
    else if b = 0xF7 then
      match st.pos with
      | .inSysex buf => (⟨.idle, st.runningStatus⟩, some ⟨.sysex buf, 0⟩)
      | _ => (st, none)
    else (st, none)
  else
    match st.pos with
    | .inSysex buf => (⟨.inSysex (buf ++ [b]), st.runningStatus⟩, none)
    | .accumulating s buf => accumulate st.runningStatus s buf b
    | .idle =>
      match st.runningStatus with
      | some s => accumulate (some s) s [] b
      | none => (st, none)

/-- Drive `feed` over a byte list, collecting all completed messages in
order (the parser's `feed_bytes`). -/
def feedAll (st : ParserState) (bs : List Nat) : ParserState × List Message :=
  match bs with
  | [] => (st, [])
  | b :: rest =>
    let r1 := feed st b
    let r2 := feedAll r1.1 rest
    (r2.1, r1.2.toList ++ r2.2)

/-- Modelled from the spec (section 7): the error taxonomy relevant to
Message construction and mutation. -/
inductive MidoError where
  | invalidParameter
  | unknownParameter
  | unknownType
  deriving DecidableEq, Repr

/-- Modelled from the spec: the named numeric parameters of the registered
message types. -/
inductive ParamName where
  | channel | note | velocity | control | value | program | pitch
  deriving DecidableEq, Repr

/-- Modelled from the spec (Spec Table): is the named parameter legal for
the given message type? -/
def legalParam : MsgType → ParamName → Bool
  | .note_off, .channel | .note_off, .note | .note_off, .velocity => true
  | .note_on, .channel | .note_on, .note | .note_on, .velocity => true
  | .control_change, .channel | .control_change, .control
  | .control_change, .value => true
  | .program_change, .channel | .program_change, .program => true
  | .pitchwheel, .channel | .pitchwheel, .pitch => true
  | _, _ => false

/-- Modelled from the spec (Spec Table): the declared range of each named
parameter — channel 0-15, pitchwheel value -8192..8191, all other
parameters 0-127. -/
def paramInRange : ParamName → Int → Prop
  | .channel, v => 0 ≤ v ∧ v < 16
  | .pitch, v => -8192 ≤ v ∧ v ≤ 8191
  | _, v => 0 ≤ v ∧ v < 128

instance (p : ParamName) (v : Int) : Decidable (paramInRange p v) := by
  cases p <;> dsimp [paramInRange] <;> infer_instance

/-- Raw (unvalidated) update of a named parameter on a payload; payloads
for which the parameter is not legal are returned unchanged (validation
rejects those combinations before this is reached). -/
def Payload.setParamRaw : Payload → ParamName → Int → Payload
  | .note_off _ n v, .channel, x => .note_off x.toNat n v
  | .note_off c _ v, .note, x => .note_off c x.toNat v
  | .note_off c n _, .velocity, x => .note_off c n x.toNat
  | .note_on _ n v, .channel, x => .note_on x.toNat n v
  | .note_on c _ v, .note, x => .note_on c x.toNat v
  | .note_on c n _, .velocity, x => .note_on c n x.toNat
  | .control_change _ k v, .channel, x => .control_change x.toNat k v
  | .control_change c _ v, .control, x => .control_change c x.toNat v
  | .control_change c k _, .value, x => .control_change c k x.toNat
  | .program_change _ p, .channel, x => .program_change x.toNat p
  | .program_change c _, .program, x => .program_change c x.toNat
  | .pitchwheel _ p, .channel, x => .pitchwheel x.toNat p
  | .pitchwheel c _, .pitch, x => .pitchwheel c x
  | d, _, _ => d

/-- Raw replacement of the sysex data sequence; non-sysex payloads are
returned unchanged. -/
def Payload.setDataRaw : Payload → List Nat → Payload
  | .sysex _, xs => .sysex xs
  | d, _ => d

/-- Modelled from the spec: a named override supplied to `construct`,
`copy`, or attribute assignment — either a numeric parameter or the sysex
data sequence. -/
inductive Override where
  | param (p : ParamName) (v : Int)
  | data (d : List Nat)
  deriving DecidableEq, Repr

/-- Apply an override without validation. -/
def applyRaw (d : Payload) : Override → Payload
  | .param p v => d.setParamRaw p v
  | .data xs => d.setDataRaw xs

/-- Is the override's name legal for the message type? -/
def legalOverride (t : MsgType) : Override → Prop
  | .param p _ => legalParam t p = true
  | .data _ => t = .sysex

instance (t : MsgType) (ov : Override) : Decidable (legalOverride t ov) := by
  cases ov <;> dsimp [legalOverride] <;> infer_instance

/-- Is the override's value within its declared range? -/
def overrideInRange : Override → Prop
  | .param p v => paramInRange p v
  | .data xs => ∀ x ∈ xs, x < 128

instance (ov : Override) : Decidable (overrideInRange ov) := by
  cases ov <;> dsimp [overrideInRange] <;> infer_instance

/-- Modelled from the spec: validate and apply one override — fails with
`UnknownParameter` if the name is not legal for the type, with
`InvalidParameter` if the value is outside its declared range, and is never
silently clamped. -/
def applyOverride (t : MsgType) (d : Payload) (ov : Override) :
    Except MidoError Payload :=
  if legalOverride t ov then
    if overrideInRange ov then .ok (applyRaw d ov) else .error .invalidParameter
  else .error .unknownParameter

/-- Modelled from the spec: the default payload of each type — every
omitted parameter takes 0, sysex data defaults to the empty sequence. -/
def MsgType.defaultPayload : MsgType → Payload
  | .note_off => .note_off 0 0 0
  | .note_on => .note_on 0 0 0
  | .control_change => .control_change 0 0 0
  | .program_change => .program_change 0 0
  | .pitchwheel => .pitchwheel 0 0
  | .sysex => .sysex []
  | .clock => .clock
  | .start => .start
  | .continue_ => .continue_
  | .stop => .stop
  | .active_sensing => .active_sensing
  | .reset => .reset

/-- Modelled from the spec: `construct(type, params...)` — start from the
type's defaults and apply each supplied override with validation.  (The
type tag is a closed inductive here, so the spec's `UnknownType` case is
unrepresentable.)  A fresh message carries time 0. -/
def construct (t : MsgType) (ovs : List Override) : Except MidoError Message :=
  match ovs.foldlM (applyOverride t) t.defaultPayload with
  | .ok d => .ok ⟨d, 0⟩
  | .error e => .error e

/-- Modelled from the spec: `copy(overrides...)` — a new Message identical
to the receiver except for the named overrides, with the same validation as
construct. -/
def Message.copy (m : Message) (ovs : List Override) : Except MidoError Message :=
  match ovs.foldlM (applyOverride m.payload.msgType) m.payload with
  | .ok d => .ok ⟨d, m.time⟩
  | .error e => .error e

/-- Modelled from the spec: attribute assignment on a Message — a single
validated parameter mutation.  The type tag is not assignable: no operation
changes it. -/
def Message.setAttr (m : Message) (ov : Override) : Except MidoError Message :=
  match applyOverride m.payload.msgType m.payload ov with
  | .ok d => .ok ⟨d, m.time⟩
  | .error e => .error e

/-- Modelled from the spec: semantic equality of Messages — `type`,
`channel` (if applicable) and all declared parameters (including sysex
`data`) compare equal; `time` is excluded. -/
def Message.msgEq (a b : Message) : Prop := a.payload = b.payload

/-- Translated from `get_ioport_names` in `src/mido/__init__.py`:
`sorted(set(get_input_names()) & set(get_output_names()))`, parameterized
over the two name lists returned by the external name collaborators. -/
def get_ioport_names (inputs outputs : List String) : List String :=
  (inputs.toFinset ∩ outputs.toFinset).sort (· ≤ ·)

/-! ### Parser helper lemmas -/

lemma feed_data (st : ParserState) (b : Nat) (hb : b < 0x80) :
    feed st b = (match st.pos with
      | .inSysex buf => (⟨.inSysex (buf ++ [b]), st.runningStatus⟩, none)
      | .accumulating s buf => accumulate st.runningStatus s buf b
      | .idle => match st.runningStatus with
          | some s => accumulate (some s) s [] b
          | none => (st, none)) := by
  unfold feed
  rw [if_neg (by unfold isRealtime; omega), if_neg (by omega), if_neg (by omega)]

lemma feed_channel_status (st : ParserState) (b : Nat) (hb : isChannelStatus b) :
    feed st b = (⟨.accumulating b [], some b⟩, none) := by
  have h1 : b ≤ 0xEF := by unfold isChannelStatus at hb; omega
  unfold feed
  rw [if_neg (by unfold isRealtime; omega), if_neg (by omega),
    if_pos (by unfold isChannelStatus at hb; omega), if_pos hb]

lemma accumulate_not_full (rs : Option Nat) (s : Nat) (buf : List Nat) (b : Nat)
    (h : buf.length + 1 ≠ statusDataLength s) :
    accumulate rs s buf b = (⟨.accumulating s (buf ++ [b]), rs⟩, none) := by
  unfold accumulate
  rw [if_neg (by simpa using h)]

lemma accumulate_full (rs : Option Nat) (s : Nat) (buf : List Nat) (b : Nat)
    (h : buf.length + 1 = statusDataLength s) :
    accumulate rs s buf b = (⟨.idle, rs⟩, decodeMsg s (buf ++ [b])) := by
  unfold accumulate
  rw [if_pos (by simpa using h)]

lemma feed_sysex_data (rs : Option Nat) (acc : List Nat) (b : Nat) (hb : b < 128) :
    feed ⟨.inSysex acc, rs⟩ b = (⟨.inSysex (acc ++ [b]), rs⟩, none) := by
  rw [feed_data _ _ hb]

lemma feed_sysex_end (rs : Option Nat) (acc : List Nat) :
    feed ⟨.inSysex acc, rs⟩ 0xF7 = (⟨.idle, rs⟩, some ⟨.sysex acc, 0⟩) := by
  unfold feed
  rw [if_neg (by unfold isRealtime; omega), if_neg (by omega), if_pos (by omega),
    if_neg (by unfold isChannelStatus; omega),
    if_neg (by unfold isSystemCommon; omega), if_pos rfl]

lemma feedAll_sysex_run (d : List Nat) : ∀ (rs : Option Nat) (acc : List Nat),
    (∀ x ∈ d, x < 128) →
    feedAll ⟨.inSysex acc, rs⟩ (d ++ [0xF7]) =
      (⟨.idle, rs⟩, [⟨.sysex (acc ++ d), 0⟩]) := by
  induction d with
  | nil =>
      intro rs acc h
      simp only [List.nil_append, feedAll]
      rw [feed_sysex_end]
      simp [feedAll]
  | cons x xs ih =>
      intro rs acc h
      simp only [List.cons_append, feedAll]
      rw [feed_sysex_data _ _ _ (h x (by simp))]
      dsimp only
      simp only [List.append_eq]
      rw [ih rs (acc ++ [x]) (fun y hy => h y (by simp [hy]))]
      simp

lemma feedAll_status_two (s n v : Nat) (hs : isChannelStatus s)
    (hlen : statusDataLength s = 2) (hn : n < 128) (hv : v < 128) :
    feedAll freshParser [s, n, v] = (⟨.idle, some s⟩, (decodeMsg s [n, v]).toList) := by
  simp only [feedAll, freshParser]
  rw [feed_channel_status _ _ hs]
  simp only [feedAll]
  rw [feed_data _ _ hn]
  simp only
  rw [accumulate_not_full _ _ _ _ (by simp [hlen])]
  simp only [feedAll]
  rw [feed_data _ _ hv]
  simp only
  rw [accumulate_full _ _ _ _ (by simp [hlen])]
  simp [feedAll]

lemma feedAll_status_one (s p : Nat) (hs : isChannelStatus s)
    (hlen : statusDataLength s = 1) (hp : p < 128) :
    feedAll freshParser [s, p] = (⟨.idle, some s⟩, (decodeMsg s [p]).toList) := by
  simp only [feedAll, freshParser]
  rw [feed_channel_status _ _ hs]
  simp only [feedAll]
  rw [feed_data _ _ hp]
  simp only
  rw [accumulate_full _ _ _ _ (by simp [hlen])]
  simp [feedAll]

/-! ### The parser examples (claims C3-C6) -/

/-- C3: feeding [0x90, 60, 64, 61, 100] to a fresh parser yields exactly two
note_on messages on channel 0, in order — (note=60, velocity=64) and, via
running-status shorthand with no repeated status byte, (note=61,
velocity=100). -/
theorem running_status_example :
    (feedAll freshParser [0x90, 60, 64, 61, 100]).2 =
      [⟨.note_on 0 60 64, 0⟩, ⟨.note_on 0 61 100, 0⟩] := by decide

/-- C4: feeding [0xF0, 1, 2, 0xF8, 3, 0xF7] to a fresh parser yields exactly
two messages in order — a clock message emitted immediately at 0xF8, then a
sysex with data (1, 2, 3); the interleaved realtime byte does not disturb
the sysex accumulation. -/
theorem realtime_interleave_example :
    (feedAll freshParser [0xF0, 1, 2, 0xF8, 3, 0xF7]).2 =
      [⟨.clock, 0⟩, ⟨.sysex [1, 2, 3], 0⟩] := by decide

/-- C5: feeding [0x90, 60] (incomplete note_on) and then [0x80, 60, 0] to
the same parser yields exactly one message — a note_off with note=60,
velocity=0; the partial note_on is silently dropped at the new status byte
and nothing is merged. -/
theorem resynchronization_example :
    (feedAll freshParser [0x90, 60]).2 = [] ∧
    (feedAll (feedAll freshParser [0x90, 60]).1 [0x80, 60, 0]).2 =
      [⟨.note_off 0 60 0, 0⟩] := by decide

/-- C6: feeding [0xF0, 1, 2, 0x90, 60, 64] to a fresh parser yields exactly
one message — a note_on with note=60, velocity=64; the unterminated sysex
interrupted by the 0x90 status byte is abandoned and emits nothing. -/
theorem sysex_abandon_example :
    (feedAll freshParser [0xF0, 1, 2, 0x90, 60, 64]).2 =
      [⟨.note_on 0 60 64, 0⟩] := by decide

/-! ### Round-trip (claim C1) -/

lemma encode_roundtrip_payload (m : Message) (h : m.payload.valid = true) :
    (feedAll freshParser m.encode).2 = [⟨m.payload, 0⟩] := by
  obtain ⟨p, t⟩ := m
  cases p with
  | note_off c n v =>
      simp only [Payload.valid, decide_eq_true_eq, Bool.and_eq_true] at h
      obtain ⟨⟨hc, hn⟩, hv⟩ := h
      show (feedAll freshParser [0x80 + c, n, v]).2 = _
      rw [feedAll_status_two _ _ _ (by unfold isChannelStatus; omega)
        (by unfold statusDataLength; rw [if_neg (by omega)]) hn hv]
      unfold decodeMsg
      rw [if_pos (by omega)]
      simp [Nat.add_sub_cancel_left]
  | note_on c n v =>
      simp only [Payload.valid, decide_eq_true_eq, Bool.and_eq_true] at h
      obtain ⟨⟨hc, hn⟩, hv⟩ := h
      show (feedAll freshParser [0x90 + c, n, v]).2 = _
      rw [feedAll_status_two _ _ _ (by unfold isChannelStatus; omega)
        (by unfold statusDataLength; rw [if_neg (by omega)]) hn hv]
      unfold decodeMsg
      rw [if_neg (by omega), if_pos (by omega)]
      simp [Nat.add_sub_cancel_left]
  | control_change c k v =>
      simp only [Payload.valid, decide_eq_true_eq, Bool.and_eq_true] at h
      obtain ⟨⟨hc, hk⟩, hv⟩ := h
      show (feedAll freshParser [0xB0 + c, k, v]).2 = _
      rw [feedAll_status_two _ _ _ (by unfold isChannelStatus; omega)
        (by unfold statusDataLength; rw [if_neg (by omega)]) hk hv]
      unfold decodeMsg
      rw [if_neg (by omega), if_neg (by omega), if_pos (by omega)]
      simp [Nat.add_sub_cancel_left]
  | program_change c pr =>
      simp only [Payload.valid, decide_eq_true_eq, Bool.and_eq_true] at h
      obtain ⟨hc, hp⟩ := h
      show (feedAll freshParser [0xC0 + c, pr]).2 = _
      rw [feedAll_status_one _ _ (by unfold isChannelStatus; omega)
        (by unfold statusDataLength; rw [if_pos (by omega)]) hp]
      unfold decodeMsg
      rw [if_neg (by omega), if_neg (by omega), if_neg (by omega), if_pos (by omega)]
      simp [Nat.add_sub_cancel_left]
  | pitchwheel c pw =>
      simp only [Payload.valid, decide_eq_true_eq, Bool.and_eq_true] at h
      obtain ⟨hc, hlo, hhi⟩ := h
      simp only [Message.encode]
      rw [feedAll_status_two _ _ _ (by unfold isChannelStatus; omega)
        (by unfold statusDataLength; rw [if_neg (by omega)]) (by omega) (by omega)]
      unfold decodeMsg
      rw [if_neg (by omega), if_neg (by omega), if_neg (by omega), if_neg (by omega),
        if_pos (by omega)]
      simp only [Option.toList, Nat.add_sub_cancel_left, List.cons.injEq,
        Message.mk.injEq, Payload.pitchwheel.injEq, and_true, true_and]
      omega
  | sysex d =>
      simp only [Payload.valid, List.all_eq_true, decide_eq_true_eq] at h
      show (feedAll freshParser (0xF0 :: (d ++ [0xF7]))).2 = _
      simp only [feedAll]
      have hf0 : feed freshParser 0xF0 = (⟨.inSysex [], none⟩, none) := by
        unfold feed
        rw [if_neg (by unfold isRealtime; omega), if_pos rfl]
      rw [hf0]
      dsimp only
      rw [feedAll_sysex_run d none [] h]
      simp
  | clock => rfl
  | start => rfl
  | continue_ => rfl
  | stop => rfl
  | active_sensing => rfl
  | reset => rfl

/-- C1: for every constructible Message, encoding it and feeding the bytes
to a fresh Streaming Parser yields exactly one Message equal to it, where
equality (`Message.msgEq`) ignores the time field. -/
theorem encode_roundtrip (m : Message) (h : m.payload.valid = true) :
    ∃ m2, (feedAll freshParser m.encode).2 = [m2] ∧ m2.msgEq m :=
  ⟨⟨m.payload, 0⟩, encode_roundtrip_payload m h, rfl⟩

/-- Witness for C1 at the concrete message note_on(channel=0, note=60,
velocity=64) with nonzero time 5. -/
theorem encode_roundtrip_witness :
    Payload.valid (.note_on 0 60 64) = true ∧
    ∃ m2, (feedAll freshParser (Message.encode ⟨.note_on 0 60 64, 5⟩)).2 = [m2] ∧
      m2.msgEq ⟨.note_on 0 60 64, 5⟩ :=
  ⟨by decide, encode_roundtrip ⟨.note_on 0 60 64, 5⟩ (by decide)⟩

/-! ### Parser totality and resynchronization (claim C2) -/

/-- C2: for every byte value 0-255 and every parser state, `feed` returns
normally with either a completed Message or none; a data byte arriving with
nothing in progress and no running status is discarded with the state
unchanged (parsing continues from the next byte), an unregistered status
byte is discarded with the state unchanged, a System Common status byte
abandons the in-progress accumulation and clears running status (rule 5),
and a realtime byte never changes the state. -/
theorem feed_total_resync (st : ParserState) (b : Nat) (hb : b ≤ 255) :
    (∃ st2 om, feed st b = (st2, om)) ∧
    (st.pos = .idle → st.runningStatus = none → b ≤ 127 → feed st b = (st, none)) ∧
    (0x80 ≤ b → ¬ isChannelStatus b → b < 0xF1 → b ≠ 0xF0 →
      feed st b = (st, none)) ∧
    (isSystemCommon b → feed st b = (⟨.idle, none⟩, none)) ∧
    (isRealtime b → (feed st b).1 = st) := by
  refine ⟨⟨(feed st b).1, (feed st b).2, rfl⟩, ?_, ?_, ?_, ?_⟩
  · intro hpos hrs hdata
    rw [feed_data _ _ (by omega), hpos, hrs]
  · intro h1 h2 h3 h4
    unfold feed
    rw [if_neg (by unfold isRealtime; omega), if_neg h4, if_pos h1, if_neg h2,
      if_neg (by unfold isSystemCommon; omega), if_neg (by omega)]
  · intro h1
    unfold isSystemCommon at h1
    unfold feed
    rw [if_neg (by unfold isRealtime; omega), if_neg (by omega),
      if_pos (by omega), if_neg (by unfold isChannelStatus; omega),
      if_pos (by unfold isSystemCommon; omega)]
  · intro h1
    unfold feed
    rw [if_pos h1]

/-- Witness for C2 at a fresh parser and the data byte 60. -/
theorem feed_total_resync_witness :
    (60 ≤ 255) ∧
    ((∃ st2 om, feed freshParser 60 = (st2, om)) ∧
     (freshParser.pos = .idle → freshParser.runningStatus = none → 60 ≤ 127 →
       feed freshParser 60 = (freshParser, none)) ∧
     (0x80 ≤ 60 → ¬ isChannelStatus 60 → 60 < 0xF1 → 60 ≠ 0xF0 →
       feed freshParser 60 = (freshParser, none)) ∧
     (isSystemCommon 60 → feed freshParser 60 = (⟨.idle, none⟩, none)) ∧
     (isRealtime 60 → (feed freshParser 60).1 = freshParser)) :=
  ⟨by decide, feed_total_resync freshParser 60 (by decide)⟩

/-! ### Encoded form and byte length (claim C8) -/

/-- C8: `encode` produces the status byte (encoding type and channel where
applicable) followed by the type's fixed number of data bytes, with sysex
wrapped as 0xF0, the data bytes, then 0xF7; `byteLength` equals the length
of the bytes `encode` produces; in particular a sysex with data bytes
0,1,2,3,4 encodes to F0 00 01 02 03 04 F7 and has length 7. -/
theorem encode_structure :
    (∀ m : Message, m.byteLength = m.encode.length) ∧
    (∀ (d : List Nat) (t : Int),
      Message.encode ⟨.sysex d, t⟩ = 0xF0 :: (d ++ [0xF7])) ∧
    (∀ m : Message, (∀ d, m.payload ≠ .sysex d) →
      ∃ ds, m.encode = m.payload.statusByte :: ds ∧
        ds.length = m.payload.msgType.dataLength) ∧
    Message.encode ⟨.sysex [0, 1, 2, 3, 4], 0⟩ = [0xF0, 0, 1, 2, 3, 4, 0xF7] ∧
    Message.byteLength ⟨.sysex [0, 1, 2, 3, 4], 0⟩ = 7 := by
  refine ⟨?_, ?_, ?_, by decide, by decide⟩
  · intro m
    obtain ⟨p, t⟩ := m
    cases p <;> simp [Message.byteLength, Message.encode, Payload.msgType,
      MsgType.dataLength]
  · intro d t
    rfl
  · intro m hns
    obtain ⟨p, t⟩ := m
    cases p with
    | sysex d => exact absurd rfl (hns d)
    | note_off c n v => exact ⟨[n, v], rfl, rfl⟩
    | note_on c n v => exact ⟨[n, v], rfl, rfl⟩
    | control_change c k v => exact ⟨[k, v], rfl, rfl⟩
    | program_change c pr => exact ⟨[pr], rfl, rfl⟩
    | pitchwheel c pw =>
        exact ⟨[(pw + 8192).toNat % 128, (pw + 8192).toNat / 128], rfl, rfl⟩
    | clock => exact ⟨[], rfl, rfl⟩
    | start => exact ⟨[], rfl, rfl⟩
    | continue_ => exact ⟨[], rfl, rfl⟩
    | stop => exact ⟨[], rfl, rfl⟩
    | active_sensing => exact ⟨[], rfl, rfl⟩
    | reset => exact ⟨[], rfl, rfl⟩

/-- Witness for C8's status-byte clause at the non-sysex message clock. -/
theorem encode_structure_witness :
    ∃ ds, Message.encode ⟨.clock, 0⟩ = Payload.clock.statusByte :: ds ∧
      ds.length = Payload.clock.msgType.dataLength :=
  encode_structure.2.2.1 ⟨.clock, 0⟩ (fun _ h => Payload.noConfusion h)

/-! ### Port name intersection (claim C10) -/

/-- C10: for every pair of name lists from the input-name and output-name
collaborators, `get_ioport_names` returns exactly the names occurring in
both lists, with duplicates removed, sorted in ascending order. -/
theorem get_ioport_names_spec (inputs outputs : List String) :
    (get_ioport_names inputs outputs).Sorted (fun a b => a ≤ b) ∧
    (get_ioport_names inputs outputs).Nodup ∧
    ∀ x, x ∈ get_ioport_names inputs outputs ↔ (x ∈ inputs ∧ x ∈ outputs) := by
  refine ⟨Finset.sort_sorted _ _, Finset.sort_nodup _ _, fun x => ?_⟩
  rw [get_ioport_names, Finset.mem_sort, Finset.mem_inter, List.mem_toFinset,
    List.mem_toFinset]

/-! ### Construction, mutation and copy validation (claims C7, C9) -/

lemma except_bind_ok {α β ε : Type} (x : α) (f : α → Except ε β) :
    (Except.ok x >>= f) = f x := rfl

lemma except_bind_error {α β ε : Type} (e : ε) (f : α → Except ε β) :
    ((Except.error e : Except ε α) >>= f) = Except.error e := rfl

lemma applyOverride_ok_inv (t : MsgType) (d : Payload) (ov : Override)
    (d1 : Payload) (h : applyOverride t d ov = .ok d1) :
    legalOverride t ov ∧ overrideInRange ov ∧ d1 = applyRaw d ov := by
  unfold applyOverride at h
  by_cases hleg : legalOverride t ov
  · rw [if_pos hleg] at h
    by_cases hin : overrideInRange ov
    · rw [if_pos hin] at h
      injection h with h2
      exact ⟨hleg, hin, h2.symm⟩
    · rw [if_neg hin] at h
      exact Except.noConfusion h
  · rw [if_neg hleg] at h
    exact Except.noConfusion h

lemma applyRaw_valid (t : MsgType) (d : Payload) (ov : Override)
    (hv : d.valid = true) (hm : d.msgType = t) (hleg : legalOverride t ov)
    (hin : overrideInRange ov) :
    (applyRaw d ov).valid = true ∧ (applyRaw d ov).msgType = t := by
  subst hm
  cases ov with
  | param p v =>
      cases d <;> cases p <;>
        simp_all [legalOverride, legalParam, paramInRange, overrideInRange,
          applyRaw, Payload.setParamRaw, Payload.valid, Payload.msgType]
  | data xs =>
      cases d <;>
        simp_all [legalOverride, overrideInRange, applyRaw,
          Payload.setDataRaw, Payload.valid, Payload.msgType]


lemma foldlM_applyOverride_ok (t : MsgType) (ovs : List Override) :
    ∀ d : Payload, (∀ ov ∈ ovs, legalOverride t ov) →
    (∀ ov ∈ ovs, overrideInRange ov) →
    List.foldlM (applyOverride t) d ovs = .ok (ovs.foldl applyRaw d) := by
  induction ovs with
  | nil => intro d _ _; rfl
  | cons a l ih =>
      intro d hleg hin
      have ha : applyOverride t d a = .ok (applyRaw d a) := by
        unfold applyOverride
        rw [if_pos (hleg a (by simp)), if_pos (hin a (by simp))]
      rw [List.foldlM_cons, ha, except_bind_ok, List.foldl_cons]
      exact ih (applyRaw d a) (fun ov h => hleg ov (by simp [h]))
        (fun ov h => hin ov (by simp [h]))

lemma foldlM_applyOverride_err (t : MsgType) (ovs : List Override) :
    ∀ d : Payload, (∀ ov ∈ ovs, legalOverride t ov) →
    ¬ (∀ ov ∈ ovs, overrideInRange ov) →
    List.foldlM (applyOverride t) d ovs = .error .invalidParameter := by
  induction ovs with
  | nil =>
      intro d _ hc
      exact absurd (fun ov h => absurd h (List.not_mem_nil ov)) hc
  | cons a l ih =>
      intro d hleg hc
      by_cases hin : overrideInRange a
      · have ha : applyOverride t d a = .ok (applyRaw d a) := by
          unfold applyOverride
          rw [if_pos (hleg a (by simp)), if_pos hin]
        rw [List.foldlM_cons, ha, except_bind_ok]
        refine ih (applyRaw d a) (fun ov h => hleg ov (by simp [h])) ?_
        intro hall
        exact hc (fun ov h => by
          rcases List.mem_cons.mp h with h1 | h1
          · exact h1 ▸ hin
          · exact hall ov h1)
      · have ha : applyOverride t d a = .error .invalidParameter := by
          unfold applyOverride
          rw [if_pos (hleg a (by simp)), if_neg hin]
        rw [List.foldlM_cons, ha, except_bind_error]

lemma foldlM_applyOverride_valid (t : MsgType) (ovs : List Override) :
    ∀ d d2 : Payload,
    List.foldlM (applyOverride t) d ovs = .ok d2 → d.valid = true →
    d.msgType = t → d2.valid = true ∧ d2.msgType = t := by
  induction ovs with
  | nil =>
      intro d d2 h hv hm
      have h2 : d = d2 := by
        rw [List.foldlM_nil] at h
        injection h
      exact h2 ▸ ⟨hv, hm⟩
  | cons a l ih =>
      intro d d2 h hv hm
      rw [List.foldlM_cons] at h
      cases ha : applyOverride t d a with
      | error e => rw [ha, except_bind_error] at h; exact Except.noConfusion h
      | ok d1 =>
          rw [ha, except_bind_ok] at h
          obtain ⟨hleg, hin, hd1⟩ := applyOverride_ok_inv t d a d1 ha
          obtain ⟨hv1, hm1⟩ := applyRaw_valid t d a hv hm hleg hin
          exact ih d1 d2 h (hd1 ▸ hv1) (hd1 ▸ hm1)

lemma defaultPayload_facts (t : MsgType) :
    (t.defaultPayload).valid = true ∧ (t.defaultPayload).msgType = t := by
  cases t <;> exact ⟨rfl, rfl⟩


/-- C7: constructing a control_change with value=128 fails with
InvalidParameter while value=127 succeeds; in general, when every supplied
override names a parameter legal for the type, construct and copy fail with
InvalidParameter exactly when some supplied value lies outside its declared
range, and on success the stored payload is the raw application of the
supplied values — never silently clamped. -/
theorem construct_validation :
    (construct .control_change [.param .value 128] = .error .invalidParameter) ∧
    (construct .control_change [.param .value 127] =
      .ok ⟨.control_change 0 0 127, 0⟩) ∧
    (∀ (t : MsgType) (ovs : List Override), (∀ ov ∈ ovs, legalOverride t ov) →
      ((∀ ov ∈ ovs, overrideInRange ov) →
        construct t ovs = .ok ⟨ovs.foldl applyRaw t.defaultPayload, 0⟩) ∧
      (¬ (∀ ov ∈ ovs, overrideInRange ov) →
        construct t ovs = .error .invalidParameter)) ∧
    (∀ (m : Message) (ovs : List Override),
      (∀ ov ∈ ovs, legalOverride m.payload.msgType ov) →
      ((∀ ov ∈ ovs, overrideInRange ov) →
        Message.copy m ovs = .ok ⟨ovs.foldl applyRaw m.payload, m.time⟩) ∧
      (¬ (∀ ov ∈ ovs, overrideInRange ov) →
        Message.copy m ovs = .error .invalidParameter)) := by
  refine ⟨by rfl, by rfl, ?_, ?_⟩
  · intro t ovs hleg
    constructor
    · intro hin
      unfold construct
      rw [foldlM_applyOverride_ok t ovs _ hleg hin]
    · intro hin
      unfold construct
      rw [foldlM_applyOverride_err t ovs _ hleg hin]
  · intro m ovs hleg
    constructor
    · intro hin
      unfold Message.copy
      rw [foldlM_applyOverride_ok _ ovs _ hleg hin]
    · intro hin
      unfold Message.copy
      rw [foldlM_applyOverride_err _ ovs _ hleg hin]

/-- Witness for C7's general clause at control_change with value=127. -/
theorem construct_validation_witness :
    construct .control_change [.param .value 127] =
      .ok ⟨[Override.param .value 127].foldl applyRaw
        (MsgType.defaultPayload .control_change), 0⟩ :=
  (construct_validation.2.2.1 .control_change [.param .value 127]
    (by decide)).1 (by decide)

/-- C9: every Message satisfies the range invariant at construction and
after any mutation — attribute assignment (`setAttr`) and copy with
overrides both preserve validity — and the type tag is never changed by any
of these operations (no operation can change it after construction). -/
theorem message_invariants :
    (∀ (t : MsgType) (ovs : List Override) (m : Message),
      construct t ovs = .ok m →
      m.payload.valid = true ∧ m.payload.msgType = t) ∧
    (∀ (m : Message) (ov : Override) (m2 : Message),
      m.payload.valid = true → Message.setAttr m ov = .ok m2 →
      m2.payload.valid = true ∧ m2.payload.msgType = m.payload.msgType) ∧
    (∀ (m : Message) (ovs : List Override) (m2 : Message),
      m.payload.valid = true → Message.copy m ovs = .ok m2 →
      m2.payload.valid = true ∧ m2.payload.msgType = m.payload.msgType) := by
  refine ⟨?_, ?_, ?_⟩
  · intro t ovs m h
    unfold construct at h
    revert h
    cases hf : List.foldlM (applyOverride t) t.defaultPayload ovs with
    | error e => intro h; exact Except.noConfusion h
    | ok d =>
        intro h
        injection h with h2
        obtain ⟨hv, hm⟩ := foldlM_applyOverride_valid t ovs t.defaultPayload d hf
          (defaultPayload_facts t).1 (defaultPayload_facts t).2
        rw [← h2]
        exact ⟨hv, hm⟩
  · intro m ov m2 hv h
    unfold Message.setAttr at h
    revert h
    cases ha : applyOverride m.payload.msgType m.payload ov with
    | error e => intro h; exact Except.noConfusion h
    | ok d =>
        intro h
        injection h with h2
        obtain ⟨hleg, hin, hd⟩ := applyOverride_ok_inv _ _ _ _ ha
        obtain ⟨hv2, hm2⟩ := applyRaw_valid _ m.payload ov hv rfl hleg hin
        rw [← h2]
        exact ⟨hd ▸ hv2, hd ▸ hm2⟩
  · intro m ovs m2 hv h
    unfold Message.copy at h
    revert h
    cases hf : List.foldlM (applyOverride m.payload.msgType) m.payload ovs with
    | error e => intro h; exact Except.noConfusion h
    | ok d =>
        intro h
        injection h with h2
        obtain ⟨hv2, hm2⟩ :=
          foldlM_applyOverride_valid _ ovs m.payload d hf hv rfl
        rw [← h2]
        exact ⟨hv2, hm2⟩

/-- Witness for C9's construction clause at note_on with note=60. -/
theorem message_invariants_witness :
    construct .note_on [.param .note 60] = .ok ⟨.note_on 0 60 0, 0⟩ ∧
    (Payload.valid (.note_on 0 60 0) = true ∧
      Payload.msgType (.note_on 0 60 0) = .note_on) :=
  ⟨by rfl, message_invariants.1 .note_on [.param .note 60]
    ⟨.note_on 0 60 0, 0⟩ (by rfl)⟩

end Mido
